import Mathlib

/-!
# Verification of `database_operation_abstractions`

Shallow embedding of the core of `db_op_abstractions` (files `pg.py` and
`mysql.py`): the batch chunker, the bulk-insert engines, the two
multi-statement executors, the value escaper and the create-database-on-init
error handling.  Strings are modelled as `List Char`; the database driver is
modelled as an oracle deciding which statements execute successfully, and the
session state records committed statements, the pending (uncommitted)
transaction, and an event trace of execute/commit/rollback calls.
-/

set_option autoImplicit false

abbrev Str := List Char

/-- Python's `sep.join(xs)`. -/
def pyJoin (sep : Str) : List Str → Str
  | [] => []
  | [x] => x
  | x :: y :: xs => x ++ sep ++ pyJoin sep (y :: xs)

/-! ## Driver session model (shared by the Postgres and MySQL handles) -/

/-- One event of a session: a statement execution (with its outcome),
a `commit`, or a `rollback`. -/
inductive Ev : Type
  | exec (q : Str) (ok : Bool)
  | commit
  | rollback
deriving DecidableEq

/-- Session state: statements committed so far, statements executed but not
yet committed (the open transaction), and the full event trace. -/
structure DBState : Type where
  committed : List Str
  pending : List Str
  trace : List Ev
deriving DecidableEq

/-! ## `pg.py`: the batch chunker (`chunks` inside `bulk_insert_chunks`)

```python
def chunks(src, chunk_size):
    chunk_count = int(len(src)/chunk_size)
    chunk_count = 1 if chunk_count == 0 else chunk_count
    for i in range(0, chunk_count):
        yield src[i*chunk_size:(i+1)*chunk_size] \
            if chunk_count-1 > i else src[i*chunk_size:]
```
-/

def chunks {α : Type} (src : List α) (chunk_size : Nat) : List (List α) :=
  let chunk_count := src.length / chunk_size
  let chunk_count := if chunk_count = 0 then 1 else chunk_count
  (List.range chunk_count).map (fun i =>
    if chunk_count - 1 > i then (src.drop (i * chunk_size)).take chunk_size
    else src.drop (i * chunk_size))

lemma join_range_take_chunks {α : Type} (S : List α) (c : Nat) :
    ∀ m : Nat,
      (((List.range m).map fun i => (S.drop (i * c)).take c)).flatten = S.take (m * c) := by
  intro m
  induction m with
  | zero => simp
  | succ m ih =>
    rw [List.range_succ, List.map_append, List.flatten_append, ih]
    simp only [List.map_cons, List.map_nil, List.flatten_cons, List.flatten_nil,
      List.append_nil]
    rw [← List.take_add]
    congr 1
    ring

lemma range_map_last {α : Type} (f g : Nat → List α) (n : Nat) (hn : 1 ≤ n)
    (hf : ∀ i, i < n - 1 → f i = g i) :
    (List.range n).map f = ((List.range (n - 1)).map g) ++ [f (n - 1)] := by
  obtain ⟨m, hm⟩ : ∃ m, n = m + 1 := ⟨n - 1, by omega⟩
  subst hm
  rw [List.range_succ, List.map_append]
  simp only [Nat.add_sub_cancel, List.map_cons, List.map_nil]
  congr 1
  apply List.map_congr_left
  intro i hi
  rw [List.mem_range] at hi
  exact hf i (by omega)

/-- Structural form of `chunks`: the first `n-1` chunks are the exact
`c`-sized slices, the last chunk is the rest of the list. -/
lemma chunks_eq_append {α : Type} (S : List α) (c : Nat) :
    chunks S c =
      ((List.range ((if S.length / c = 0 then 1 else S.length / c) - 1)).map
        fun i => (S.drop (i * c)).take c) ++
      [S.drop (((if S.length / c = 0 then 1 else S.length / c) - 1) * c)] := by
  have hn1 : 1 ≤ if S.length / c = 0 then 1 else S.length / c := by
    by_cases h : S.length / c = 0
    · simp [h]
    · simp only [h, if_false]
      exact Nat.one_le_iff_ne_zero.mpr h
  show (List.range _).map _ = _
  rw [range_map_last
    (fun i => if (if S.length / c = 0 then 1 else S.length / c) - 1 > i then
        (S.drop (i * c)).take c else S.drop (i * c))
    (fun i => (S.drop (i * c)).take c) _ hn1
    (fun i hi => by simp only [gt_iff_lt, if_pos hi])]
  congr 1
  simp only [gt_iff_lt, lt_self_iff_false, if_false]

lemma chunks_length {α : Type} (S : List α) (c : Nat) :
    (chunks S c).length = max 1 (S.length / c) := by
  rw [chunks_eq_append, List.length_append, List.length_map, List.length_range]
  by_cases h : S.length / c = 0
  · simp [h]
  · have h1 : 1 ≤ S.length / c := Nat.one_le_iff_ne_zero.mpr h
    simp only [h, if_false]
    rw [Nat.max_eq_right h1]
    exact Nat.sub_add_cancel h1

/-- Claim C1 (counterexample): on the empty input the chunker does not
produce zero chunks; it produces exactly one chunk, which is empty. -/
theorem chunks_empty_cex :
    chunks ([] : List Nat) 1 ≠ [] ∧ chunks ([] : List Nat) 1 = [[]] := by
  constructor
  · decide
  · decide

/-- Claim C1 (amended): for every row sequence `S` and chunk size `c > 0`,
`chunks` produces exactly `max 1 (len S / c)` chunks whose in-order
concatenation is `S`; every chunk except the last has exactly `c` rows and
the last chunk absorbs the remainder; the empty input yields one empty chunk
(not zero chunks). -/
theorem chunks_spec {α : Type} (S : List α) (c : Nat) (hc : 0 < c) :
    (chunks S c).length = max 1 (S.length / c)
    ∧ (chunks S c).flatten = S
    ∧ (∀ ch ∈ (chunks S c).dropLast, ch.length = c)
    ∧ (((chunks S c).getLast?).getD []).length
        = S.length - ((chunks S c).length - 1) * c
    ∧ (S = [] → chunks S c = [[]]) := by
  refine ⟨chunks_length S c, ?_, ?_, ?_, ?_⟩
  · rw [chunks_eq_append, List.flatten_append, join_range_take_chunks]
    simp only [List.flatten_cons, List.flatten_nil, List.append_nil]
    exact List.take_append_drop _ S
  · intro ch hch
    rw [chunks_eq_append, List.dropLast_concat, List.mem_map] at hch
    obtain ⟨i, hi, rfl⟩ := hch
    rw [List.mem_range] at hi
    by_cases h : S.length / c = 0
    · rw [h] at hi
      simp at hi
    · simp only [h, if_false] at hi
      have h1 : i + 1 ≤ S.length / c := by omega
      have h2 : (i + 1) * c ≤ S.length / c * c :=
        Nat.mul_le_mul_right c h1
      have h3 : S.length / c * c ≤ S.length := Nat.div_mul_le_self _ _
      have h4 : i * c + c ≤ S.length := by
        rw [Nat.succ_mul] at h2
        omega
      rw [List.length_take, List.length_drop]
      generalize i * c = k at h4 ⊢
      omega
  · rw [chunks_length, chunks_eq_append, List.getLast?_concat]
    simp only [Option.getD_some, List.length_drop]
    congr 2
    by_cases h : S.length / c = 0
    · simp [h]
    · have h1 : 1 ≤ S.length / c := Nat.one_le_iff_ne_zero.mpr h
      simp only [h, if_false]
      rw [Nat.max_eq_right h1]
  · intro hS
    subst hS
    simp [chunks]

/-- Claim C1 (witness): the amended chunker specification evaluated at
`S = [1, 2, 3]`, `c = 2`. -/
theorem chunks_spec_witness :
    (chunks ([1, 2, 3] : List Nat) 2).length = max 1 (([1, 2, 3] : List Nat).length / 2)
    ∧ (chunks ([1, 2, 3] : List Nat) 2).flatten = [1, 2, 3]
    ∧ (∀ ch ∈ (chunks ([1, 2, 3] : List Nat) 2).dropLast, ch.length = 2)
    ∧ (((chunks ([1, 2, 3] : List Nat) 2).getLast?).getD []).length
        = ([1, 2, 3] : List Nat).length - ((chunks ([1, 2, 3] : List Nat) 2).length - 1) * 2
    ∧ (([1, 2, 3] : List Nat) = [] → chunks ([1, 2, 3] : List Nat) 2 = [[]]) :=
  chunks_spec [1, 2, 3] 2 (by decide)

/-! ## `pg.py`: multi-statement executors

`exec_query_list` executes each statement and commits after each one,
rolling back (and continuing) on a per-statement failure, then logs
`(succ_exec, len(Q))`.  `exec_query_list_rollback_on_error` executes all
statements in one transaction, rolls back and re-raises on the first
failure, and commits once at the end.  The driver is modelled by the
oracle `ok : Str → Bool` deciding whether a statement executes. -/

def exec_query_list_go (ok : Str → Bool) : List Str → DBState → Nat → Nat × DBState
  | [], st, succ => (succ, st)
  | q :: Q, st, succ =>
    if ok q then
      exec_query_list_go ok Q
        ⟨st.committed ++ st.pending ++ [q], [],
          st.trace ++ [Ev.exec q true, Ev.commit]⟩ (succ + 1)
    else
      exec_query_list_go ok Q
        ⟨st.committed, [], st.trace ++ [Ev.exec q false, Ev.rollback]⟩ succ

/-- Model of `PGConnCM.exec_query_list`: the returned pair `(succ_exec, len(Q))` is the
summary the function logs. -/
def exec_query_list (ok : Str → Bool) (Q : List Str) (st : DBState) :
    (Nat × Nat) × DBState :=
  let r := exec_query_list_go ok Q st 0
  ((r.1, Q.length), r.2)

/-- Model of `PGConnCM.exec_query_list_rollback_on_error`. -/
def exec_query_list_rollback_on_error (ok : Str → Bool) :
    List Str → DBState → Except (Str × DBState) DBState
  | [], st => Except.ok ⟨st.committed ++ st.pending, [], st.trace ++ [Ev.commit]⟩
  | q :: Q, st =>
    if ok q then
      exec_query_list_rollback_on_error ok Q
        ⟨st.committed, st.pending ++ [q], st.trace ++ [Ev.exec q true]⟩
    else
      Except.error (q, ⟨st.committed, [], st.trace ++ [Ev.exec q false, Ev.rollback]⟩)

/-! ## `pg.py`: bulk insert -/

/-- Python: `params` is the string of `num_fields` percent-s placeholders,
comma separated, in parentheses. -/
def params_of (num_fields : Nat) : Str :=
  "(".data ++ pyJoin ",".data (List.replicate num_fields "%s".data) ++ ")".data

/-- The single multi-row INSERT statement built by `bulk_insert`
(`mog` models `cursor.mogrify`, a driver capability treated as a black box). -/
def insert_query (mog : Str → List Str → Str) (table : Str)
    (values : List (List Str)) : Str :=
  "INSERT INTO ".data ++ table ++ " VALUES ".data ++
    pyJoin ",".data (values.map (mog (params_of (values.headD []).length)))

/-- Model of `PGConnCM.bulk_insert`: builds one INSERT, executes it, commits and
returns `len(values)`; on an execution error it rolls back and re-raises.
`len(values[0])` raises `IndexError` (before the `try` block) on empty input. -/
def bulk_insert (ok : Str → Bool) (mog : Str → List Str → Str) (table : Str)
    (values : List (List Str)) (st : DBState) :
    Except (Str × DBState) (Nat × DBState) :=
  match values with
  | [] => Except.error ("IndexError".data, st)
  | _ :: _ =>
    let q := insert_query mog table values
    if ok q then
      Except.ok (values.length,
        ⟨st.committed ++ st.pending ++ [q], [],
          st.trace ++ [Ev.exec q true, Ev.commit]⟩)
    else
      Except.error ("ProgrammingError".data,
        ⟨st.committed, [], st.trace ++ [Ev.exec q false, Ev.rollback]⟩)

/-- The list comprehension `[self.bulk_insert(table_name, chunk) for chunk in
chunks(values, chunk_size)]` followed by `sum(num_records)`: an exception in
any `bulk_insert` call propagates immediately. -/
def bulk_insert_chunks_go (ok : Str → Bool) (mog : Str → List Str → Str)
    (table : Str) :
    List (List (List Str)) → DBState → Except (Str × DBState) (Nat × DBState)
  | [], st => Except.ok (0, st)
  | ch :: chs, st =>
    match bulk_insert ok mog table ch st with
    | Except.error e => Except.error e
    | Except.ok (n, st') =>
      match bulk_insert_chunks_go ok mog table chs st' with
      | Except.error e => Except.error e
      | Except.ok (m, st'') => Except.ok (n + m, st'')

/-- Model of `PGConnCM.bulk_insert_chunks`. -/
def bulk_insert_chunks (ok : Str → Bool) (mog : Str → List Str → Str)
    (table : Str) (values : List (List Str)) (chunk_size : Nat) (st : DBState) :
    Except (Str × DBState) (Nat × DBState) :=
  bulk_insert_chunks_go ok mog table (chunks values chunk_size) st

/-- A driver oracle that executes every statement successfully. -/
def ok_all : Str → Bool := fun _ => true

/-- A mogrify model that concatenates the row's cells. -/
def mog_cat : Str → List Str → Str := fun _ r => r.flatten

/-- A driver oracle that fails exactly the first chunk's INSERT of the
concrete `bulk_insert_chunks` run used below. -/
def ok_fail_first : Str → Bool :=
  fun q => decide (q ≠ "INSERT INTO t VALUES a".data)

/-- Claim C2 (code bug): the code of `bulk_insert_chunks` does not continue
past a failed chunk.  With two one-row chunks and a driver that fails the
first chunk's INSERT, the run propagates the first chunk's error: the second
chunk is never executed (the trace holds only the first INSERT and its
rollback), nothing is committed, and no count is returned at all — although
the function's own docstring and the claim say insertion continues with the
next batch. -/
theorem bulk_insert_chunks_halts_on_error :
    chunks [["a".data], ["b".data]] 1 = [[["a".data]], [["b".data]]]
    ∧ bulk_insert_chunks ok_fail_first mog_cat "t".data
        [["a".data], ["b".data]] 1 ⟨[], [], []⟩ =
      Except.error ("ProgrammingError".data,
        ⟨[], [], [Ev.exec "INSERT INTO t VALUES a".data false, Ev.rollback]⟩)
    ∧ ok_fail_first "INSERT INTO t VALUES b".data = true := by
  refine ⟨by decide, ?_, by decide⟩
  rfl

/-- Claim C3 (confirmed): `bulk_insert` is atomic per batch: on success it
executes the single multi-row INSERT, commits, and returns `len(values)`;
on an execution error it rolls back before propagating, so the committed
statements are unchanged (zero rows of the batch are committed). -/
theorem bulk_insert_atomic (ok : Str → Bool) (mog : Str → List Str → Str)
    (table : Str) (values : List (List Str)) (st : DBState) (hv : values ≠ []) :
    bulk_insert ok mog table values st =
      if ok (insert_query mog table values) = true then
        Except.ok (values.length,
          ⟨st.committed ++ st.pending ++ [insert_query mog table values], [],
            st.trace ++ [Ev.exec (insert_query mog table values) true, Ev.commit]⟩)
      else
        Except.error ("ProgrammingError".data,
          ⟨st.committed, [],
            st.trace ++ [Ev.exec (insert_query mog table values) false, Ev.rollback]⟩) := by
  cases values with
  | nil => exact absurd rfl hv
  | cons v vs => rfl

/-- Claim C3 (witness): the atomicity statement evaluated on a concrete
one-row batch with an always-succeeding driver. -/
theorem bulk_insert_atomic_witness :
    bulk_insert ok_all mog_cat "t".data [["a".data]] ⟨[], [], []⟩ =
      if ok_all (insert_query mog_cat "t".data [["a".data]]) = true then
        Except.ok (([["a".data]] : List (List Str)).length,
          ⟨[] ++ [] ++ [insert_query mog_cat "t".data [["a".data]]], [],
            [] ++ [Ev.exec (insert_query mog_cat "t".data [["a".data]]) true, Ev.commit]⟩)
      else
        Except.error ("ProgrammingError".data,
          ⟨[], [],
            [] ++ [Ev.exec (insert_query mog_cat "t".data [["a".data]]) false, Ev.rollback]⟩) :=
  bulk_insert_atomic ok_all mog_cat "t".data [["a".data]] ⟨[], [], []⟩ (by decide)

/-- Claim C4 (confirmed): the all-or-nothing executor executes the statements
in order without intermediate commits; if all succeed it commits exactly once,
at the end, committing the whole list; on the first failing statement it rolls
back the entire accumulated transaction and re-raises that statement's error,
leaving the committed statements unchanged. -/
theorem exec_query_list_rollback_on_error_spec (ok : Str → Bool) (Q : List Str)
    (st : DBState) :
    exec_query_list_rollback_on_error ok Q st =
      if Q.all ok = true then
        Except.ok ⟨st.committed ++ st.pending ++ Q, [],
          st.trace ++ Q.map (fun q => Ev.exec q true) ++ [Ev.commit]⟩
      else
        Except.error ((Q.dropWhile ok).headD [],
          ⟨st.committed, [],
            st.trace ++ (Q.takeWhile ok).map (fun q => Ev.exec q true) ++
              [Ev.exec ((Q.dropWhile ok).headD []) false, Ev.rollback]⟩) := by
  induction Q generalizing st with
  | nil => simp [exec_query_list_rollback_on_error]
  | cons q Q ih =>
    by_cases h : ok q
    · rw [exec_query_list_rollback_on_error, if_pos h, ih]
      by_cases h2 : Q.all ok = true
      · simp [h, h2, List.append_assoc]
      · simp [h, h2, List.append_assoc]
    · rw [exec_query_list_rollback_on_error, if_neg h]
      have hall : ((q :: Q).all ok) = false := by
        simp [List.all_cons, h]
      simp [hall, List.takeWhile_cons, List.dropWhile_cons, h]

/-! ## `mysql.py`: `exec_query_list`

```python
for q in Q:
    try:
        self.conn.execute(q)
    except MySQLdb.Error as msg:
        print(...)
self.myDB.commit()
```
Each statement is executed (failures are caught and only printed, the loop
continues), and a single `commit` happens after the loop. -/

def mysql_exec_step (ok : Str → Bool) (s : DBState) (q : Str) : DBState :=
  if ok q then ⟨s.committed, s.pending ++ [q], s.trace ++ [Ev.exec q true]⟩
  else ⟨s.committed, s.pending, s.trace ++ [Ev.exec q false]⟩

def mysql_exec_query_list (ok : Str → Bool) (Q : List Str) (st : DBState) : DBState :=
  let s := Q.foldl (mysql_exec_step ok) st
  ⟨s.committed ++ s.pending, [], s.trace ++ [Ev.commit]⟩

lemma mysql_exec_fold (ok : Str → Bool) : ∀ (Q : List Str) (st : DBState),
    Q.foldl (mysql_exec_step ok) st =
      ⟨st.committed, st.pending ++ Q.filter ok,
        st.trace ++ Q.map (fun q => Ev.exec q (ok q))⟩ := by
  intro Q
  induction Q with
  | nil => intro st; simp
  | cons q Q ih =>
    intro st
    rw [List.foldl_cons, ih]
    by_cases h : ok q <;>
      simp [mysql_exec_step, h, List.filter_cons, List.append_assoc]

lemma exec_query_list_go_spec (ok : Str → Bool) :
    ∀ (Q : List Str) (committed : List Str) (trace : List Ev) (succ : Nat),
    exec_query_list_go ok Q ⟨committed, [], trace⟩ succ =
      (succ + Q.countP ok,
        ⟨committed ++ Q.filter ok, [],
          trace ++ (Q.map fun q =>
            if ok q then [Ev.exec q true, Ev.commit]
            else [Ev.exec q false, Ev.rollback]).flatten⟩) := by
  intro Q
  induction Q with
  | nil => intro c t succ; simp [exec_query_list_go]
  | cons q Q ih =>
    intro c t succ
    by_cases h : ok q
    · rw [exec_query_list_go, if_pos h]
      simp only [List.append_nil]
      rw [ih]
      simp [h, List.countP_cons, List.filter_cons, List.append_assoc]
      omega
    · rw [exec_query_list_go, if_neg h]
      rw [ih]
      simp [h, List.countP_cons, List.filter_cons, List.append_assoc]

/-- Claim C5 (counterexample): the MySQL `exec_query_list` does not commit each
statement individually: on two successfully executing statements its trace
holds a single commit after both executions, not a commit after each. -/
theorem mysql_exec_query_list_cex :
    (mysql_exec_query_list ok_all ["a".data, "b".data] ⟨[], [], []⟩).trace =
      [Ev.exec "a".data true, Ev.exec "b".data true, Ev.commit]
    ∧ (mysql_exec_query_list ok_all ["a".data, "b".data] ⟨[], [], []⟩).trace ≠
      [Ev.exec "a".data true, Ev.commit, Ev.exec "b".data true, Ev.commit] := by
  constructor
  · decide
  · decide

/-- Claim C5 (amended): the Postgres `exec_query_list` executes and commits
each statement individually in order, rolling back that statement's
transaction on failure and continuing, and reports `(succeeded, len Q)`; the
MySQL `exec_query_list` also executes every statement in order and continues
past failures, but accumulates all successes in one transaction committed
exactly once after the loop, and reports no counts.  In both, a failure of
statement `i` never prevents statement `i+1` from running. -/
theorem exec_query_list_spec (ok : Str → Bool) (Q : List Str) (st st2 : DBState)
    (hp : st.pending = []) :
    exec_query_list ok Q st =
      ((Q.countP ok, Q.length),
        ⟨st.committed ++ Q.filter ok, [],
          st.trace ++ (Q.map fun q =>
            if ok q then [Ev.exec q true, Ev.commit]
            else [Ev.exec q false, Ev.rollback]).flatten⟩)
    ∧ mysql_exec_query_list ok Q st2 =
      ⟨st2.committed ++ st2.pending ++ Q.filter ok, [],
        st2.trace ++ Q.map (fun q => Ev.exec q (ok q)) ++ [Ev.commit]⟩ := by
  constructor
  · obtain ⟨c, p, t⟩ := st
    simp only at hp
    subst hp
    unfold exec_query_list
    rw [exec_query_list_go_spec]
    simp
  · unfold mysql_exec_query_list
    rw [mysql_exec_fold]
    simp [List.append_assoc]

/-- Claim C5 (witness): the amended executor statement evaluated on the
two-statement list `["a", "b"]` with an always-succeeding driver. -/
theorem exec_query_list_spec_witness :
    exec_query_list ok_all ["a".data, "b".data] ⟨[], [], []⟩ =
      ((["a".data, "b".data].countP ok_all, (["a".data, "b".data] : List Str).length),
        ⟨[] ++ ["a".data, "b".data].filter ok_all, [],
          [] ++ ((["a".data, "b".data] : List Str).map fun q =>
            if ok_all q then [Ev.exec q true, Ev.commit]
            else [Ev.exec q false, Ev.rollback]).flatten⟩)
    ∧ mysql_exec_query_list ok_all ["a".data, "b".data] ⟨[], [], []⟩ =
      ⟨[] ++ [] ++ ["a".data, "b".data].filter ok_all, [],
        [] ++ (["a".data, "b".data] : List Str).map (fun q => Ev.exec q (ok_all q)) ++
          [Ev.commit]⟩ :=
  exec_query_list_spec ok_all ["a".data, "b".data] ⟨[], [], []⟩ ⟨[], [], []⟩ rfl

/-! ## `pg.py`: `PGConnCM.__init__` with `create_database_on_init=True`

```python
try:
    con = psycopg2.connect(database='postgres', ...)
    con.set_isolation_level(ISOLATION_LEVEL_AUTOCOMMIT)
    cur = con.cursor()
    cur.execute('CREATE DATABASE ' + database)
    ...
except psycopg2.ProgrammingError:
    pass #database already exists, keep going
```
The `except` clause catches the whole `psycopg2.ProgrammingError` class.
The driver's exception taxonomy is modelled by `PgErrKind` together with the
class membership predicate `programming_error_class` (SQLSTATE class-42
errors such as duplicate database, syntax error and insufficient privilege
are `ProgrammingError`s; operational and data errors are not). -/

inductive PgErrKind : Type
  | duplicate_database
  | syntax_error
  | insufficient_privilege
  | operational_error
  | data_error
deriving DecidableEq

def programming_error_class : PgErrKind → Bool
  | .duplicate_database => true
  | .syntax_error => true
  | .insufficient_privilege => true
  | .operational_error => false
  | .data_error => false

/-- Argument `outcome` is the error (if any) raised inside the guarded create-database
block; the result is the error propagated to the caller (if any). -/
def create_database_on_init : Option PgErrKind → Option PgErrKind
  | Option.none => Option.none
  | some e => if programming_error_class e then Option.none else some e

/-- Claim C9 (counterexample): suppression does not require a match on the
specific "database already exists" kind: a syntax error — a
`ProgrammingError` that is not `duplicate_database` — raised during the
create attempt is swallowed too, not propagated. -/
theorem create_database_on_init_cex :
    create_database_on_init (some PgErrKind.syntax_error) = Option.none
    ∧ PgErrKind.syntax_error ≠ PgErrKind.duplicate_database := by
  constructor
  · decide
  · decide

/-- Claim C9 (amended): the create attempt swallows exactly the errors of the
broad `psycopg2.ProgrammingError` class — which contains "database already
exists", so that error is indeed swallowed — and propagates every error
outside that class unchanged.  Suppression matches the broad class, not the
specific duplicate-database kind. -/
theorem create_database_on_init_spec (e : PgErrKind) :
    (create_database_on_init (some e) = Option.none
      ↔ programming_error_class e = true)
    ∧ (programming_error_class e = false →
        create_database_on_init (some e) = some e)
    ∧ create_database_on_init (some PgErrKind.duplicate_database) = Option.none
    ∧ create_database_on_init Option.none = Option.none := by
  cases e <;> simp [create_database_on_init, programming_error_class]

/-- Claim C9 (witness): the amended statement evaluated at the
operational-error kind. -/
theorem create_database_on_init_spec_witness :
    (create_database_on_init (some PgErrKind.operational_error) = Option.none
      ↔ programming_error_class PgErrKind.operational_error = true)
    ∧ (programming_error_class PgErrKind.operational_error = false →
        create_database_on_init (some PgErrKind.operational_error)
          = some PgErrKind.operational_error)
    ∧ create_database_on_init (some PgErrKind.duplicate_database) = Option.none
    ∧ create_database_on_init Option.none = Option.none :=
  create_database_on_init_spec PgErrKind.operational_error

/-! ## `mysql.py`: the value escaper

```python
def escape(self, stmt):
    return escape_string(stmt).strip() if stmt else None
```
`escape_string` is pymysql's character-level escaper (NUL, newline, carriage
return, ctrl-Z, single quote, double quote and backslash are replaced by
backslash sequences); `.strip()` removes leading and trailing Python
whitespace; a falsy argument (`None` or the empty string) yields `None`. -/

def esc_char (c : Char) : Str :=
  if c = Char.ofNat 0 then ['\\', '0']
  else if c = '\n' then ['\\', 'n']
  else if c = '\r' then ['\\', 'r']
  else if c = Char.ofNat 26 then ['\\', 'Z']
  else if c = '\'' then ['\\', '\'']
  else if c = '"' then ['\\', '"']
  else if c = '\\' then ['\\', '\\']
  else [c]

def escape_string (s : Str) : Str := (s.map esc_char).flatten

/-- Python's `str.isspace()` on one character — the exact set `str.strip()`
removes: tab, line feed, vertical tab, form feed, carriage return, the
file/group/record/unit separator controls 0x1c-0x1f, space, next line 0x85,
no-break space 0xa0, Ogham space mark 0x1680, the Unicode space separators
0x2000-0x200a, the line and paragraph separators 0x2028 and 0x2029, narrow
no-break space 0x202f, medium mathematical space 0x205f, and ideographic
space 0x3000. -/
def py_isspace (c : Char) : Bool :=
  decide (c.toNat = 9 ∨ c.toNat = 10 ∨ c.toNat = 11 ∨ c.toNat = 12 ∨
    c.toNat = 13 ∨ (28 ≤ c.toNat ∧ c.toNat ≤ 31) ∨ c.toNat = 32 ∨
    c.toNat = 133 ∨ c.toNat = 160 ∨ c.toNat = 5760 ∨
    (8192 ≤ c.toNat ∧ c.toNat ≤ 8202) ∨ c.toNat = 8232 ∨ c.toNat = 8233 ∨
    c.toNat = 8239 ∨ c.toNat = 8287 ∨ c.toNat = 12288)

def py_strip (s : Str) : Str :=
  ((s.dropWhile py_isspace).reverse.dropWhile py_isspace).reverse

/-- Model of `MysqlConnCM.escape`, on a Python value that is a string or `None`. -/
def escape : Option Str → Option Str
  | Option.none => Option.none
  | some s => if s = [] then Option.none else some (py_strip (escape_string s))

/-- Claim C8 (counterexample): `escape` is not idempotent on every string it
is defined on: on the one-character string `'` the escaper yields `\'`, and
re-escaping that yields `\\\'`, corrupting the already-escaped value. -/
theorem escape_not_idempotent_cex :
    escape (some ['\'']) = some ['\\', '\'']
    ∧ escape (escape (some ['\''])) = some ['\\', '\\', '\\', '\'']
    ∧ escape (escape (some ['\''])) ≠ escape (some ['\'']) := by
  refine ⟨by decide, by decide, by decide⟩

lemma escape_string_id (s : Str) (h : ∀ c ∈ s, esc_char c = [c]) :
    escape_string s = s := by
  induction s with
  | nil => rfl
  | cons c cs ih =>
    show esc_char c ++ escape_string cs = c :: cs
    rw [h c (List.mem_cons_self c cs), ih fun x hx => h x (List.mem_cons_of_mem c hx)]
    rfl

/-- Claim C8 (amended): `escape` is idempotent-safe only on already-safe
values: for every nonempty string with no character that `escape_string`
rewrites and no leading or trailing whitespace, `escape` is the identity and
hence `escape (escape s) = escape s`.  On general strings idempotence fails
(see the counterexample). -/
theorem escape_idempotent_on_safe (s : Str) (h0 : s ≠ [])
    (h1 : ∀ c ∈ s, esc_char c = [c]) (h2 : py_strip s = s) :
    escape (some s) = some s
    ∧ escape (escape (some s)) = escape (some s) := by
  have he : escape (some s) = some s := by
    simp only [escape, if_neg h0, escape_string_id s h1, h2]
  exact ⟨he, by rw [he, he]⟩

/-- Claim C8 (witness): the amended escaper statement evaluated at the safe
string `"abc"`. -/
theorem escape_idempotent_on_safe_witness :
    ("abc".data ≠ ([] : Str))
    ∧ (∀ c ∈ "abc".data, esc_char c = [c])
    ∧ py_strip "abc".data = "abc".data
    ∧ (escape (some "abc".data) = some "abc".data
        ∧ escape (escape (some "abc".data)) = escape (some "abc".data)) :=
  ⟨by decide, by decide, by decide,
    escape_idempotent_on_safe "abc".data (by decide) (by decide) (by decide)⟩

/-! ## `mysql.py`: `bulk_insert`

```python
insert_queue = []
insert_vals = ""
total_count = 0
for i in range(0, len(rows)):
    total_count += 1
    insert_vals += "(" + ",".join(["'" + ... + "'" for k in
        [self.escape(j) if type(j) == str else j for j in rows[i]]]) + "),"
    if total_count % 10000 == 0 or total_count == len(rows):
        insert_queue.append(insert_clause + " VALUES "
            + insert_vals[0:-1].replace("'None'", "NULL")
            + " " + update_clause + ";")
        insert_vals = ""
self.exec_query_list(insert_queue)
```
A cell value is a Python string (escaped), an integer (passed through) or
`None`; `"'" + str(k) + "'"` quotes the formatted value (`str(None)` is the
text `None`); `insert_vals[0:-1]` drops the final comma; `.replace` is
Python's left-to-right, non-overlapping replace-all. -/

inductive PyVal : Type
  | str (s : Str)
  | int (n : Int)
  | none
deriving DecidableEq

/-- Python `str(k)` for `k = self.escape(j) if type(j) == str else j`. -/
def cell_val : PyVal → Str
  | .str s =>
    match escape (some s) with
    | Option.none => "None".data
    | some t => t
  | .int n => (toString n).data
  | .none => "None".data

/-- Python `"'" + str(k) + "'"`. -/
def cell_format (v : PyVal) : Str := "'".data ++ cell_val v ++ "'".data

/-- Python `"(" + ",".join([...]) + ")"` for one row. -/
def row_fragment (row : List PyVal) : Str :=
  "(".data ++ pyJoin ",".data (row.map cell_format) ++ ")".data

/-- Python's `s.replace(pat, rep)`: left-to-right, non-overlapping
replacement of every occurrence (for a nonempty pattern). -/
def pyReplace (pat rep : Str) : Str → Str
  | [] => []
  | c :: cs =>
    if h : pat ≠ [] ∧ (c :: cs).take pat.length = pat then
      rep ++ pyReplace pat rep ((c :: cs).drop pat.length)
    else
      c :: pyReplace pat rep cs
termination_by s => s.length
decreasing_by
  · simp only [List.length_drop, List.length_cons]
    have hp : pat.length ≠ 0 := fun h0 => h.1 (List.eq_nil_of_length_eq_zero h0)
    omega
  · simp only [List.length_cons]
    omega

/-- The post-formatting substitution `.replace("'None'", "NULL")`. -/
def null_subst (s : Str) : Str := pyReplace "'None'".data "NULL".data s

/-- The final text a single cell contributes to a dispatched statement. -/
def cell_subst (v : PyVal) : Str := null_subst (cell_format v)

/-- One iteration of the `bulk_insert` loop, at the row-grouping level:
state is `(insert_queue, pending rows, total_count)`. -/
def mbatch_step {α : Type} (n : Nat) (st : List (List α) × List α × Nat)
    (r : α) : List (List α) × List α × Nat :=
  let c := st.2.2 + 1
  let P := st.2.1 ++ [r]
  if c % 10000 = 0 ∨ c = n then (st.1 ++ [P], [], c) else (st.1, P, c)

/-- The groups of rows that `bulk_insert` turns into sub-batch statements. -/
def sub_batches {α : Type} (rows : List α) : List (List α) :=
  (rows.foldl (mbatch_step rows.length) ([], [], 0)).1

/-- The accumulated `insert_vals` string for a list of pending rows. -/
def pend_str (P : List (List PyVal)) : Str :=
  (P.map fun r => row_fragment r ++ [',']).flatten

/-- The statement appended to `insert_queue` for one group of rows. -/
def stmt_of (ic uc : Str) (g : List (List PyVal)) : Str :=
  ic ++ " VALUES ".data ++ null_subst (pend_str g).dropLast ++ " ".data ++
    uc ++ ";".data

/-- One iteration of the `bulk_insert` loop, at the string level exactly as
the code runs it: state is `(insert_queue, insert_vals, total_count)`. -/
def mbulk_step (ic uc : Str) (n : Nat) (st : List Str × Str × Nat)
    (row : List PyVal) : List Str × Str × Nat :=
  let c := st.2.2 + 1
  let vals := st.2.1 ++ row_fragment row ++ [',']
  if c % 10000 = 0 ∨ c = n then
    (st.1 ++ [ic ++ " VALUES ".data ++ null_subst vals.dropLast ++ " ".data ++
        uc ++ ";".data],
      [], c)
  else (st.1, vals, c)

/-- Model of `MysqlConnCM.bulk_insert`: the list of statements handed to
`exec_query_list` (`ic` is `insert_clause`, `uc` is `update_clause`). -/
def mysql_bulk_insert (ic uc : Str) (rows : List (List PyVal)) : List Str :=
  (rows.foldl (mbulk_step ic uc rows.length) ([], [], 0)).1

/-- Python `",".join` of the row fragments of a group: what
`insert_vals[0:-1]` holds when the group is flushed. -/
def values_fragment (g : List (List PyVal)) : Str :=
  pyJoin ",".data (g.map row_fragment)

/-- Reference chunking of a list into groups of 10000 with a shorter
final group. -/
def chunk10k {α : Type} : List α → List (List α)
  | [] => []
  | a :: l => ((a :: l).take 10000) :: chunk10k ((a :: l).drop 10000)
termination_by l => l.length
decreasing_by
  simp only [List.length_drop, List.length_cons]
  omega

lemma chunk10k_nil {α : Type} : chunk10k ([] : List α) = [] := by rw [chunk10k]

lemma chunk10k_cons {α : Type} (l : List α) (h : l ≠ []) :
    chunk10k l = l.take 10000 :: chunk10k (l.drop 10000) := by
  cases l with
  | nil => exact absurd rfl h
  | cons a t => rw [chunk10k]

lemma chunk10k_flatten_aux {α : Type} : ∀ (N : Nat) (l : List α), l.length ≤ N →
    (chunk10k l).flatten = l := by
  intro N
  induction N with
  | zero =>
    intro l hl
    have h0 : l = [] := List.eq_nil_of_length_eq_zero (by omega)
    subst h0
    rw [chunk10k_nil]
    rfl
  | succ N ih =>
    intro l hl
    cases l with
    | nil => rw [chunk10k_nil]; rfl
    | cons a t =>
      have hb : ((a :: t).drop 10000).length ≤ N := by
        simp only [List.length_drop, List.length_cons]
        simp only [List.length_cons] at hl
        omega
      rw [chunk10k_cons _ (by simp), List.flatten_cons, ih _ hb,
        List.take_append_drop]

lemma chunk10k_flatten {α : Type} (l : List α) : (chunk10k l).flatten = l :=
  chunk10k_flatten_aux l.length l le_rfl

lemma chunk10k_lengths_aux {α : Type} : ∀ (N : Nat) (l : List α), l.length ≤ N →
    (chunk10k l).map List.length =
      List.replicate (l.length / 10000) 10000 ++
        (if l.length % 10000 = 0 then [] else [l.length % 10000]) := by
  intro N
  induction N with
  | zero =>
    intro l hl
    have h0 : l = [] := List.eq_nil_of_length_eq_zero (by omega)
    subst h0
    rw [chunk10k_nil]
    simp
  | succ N ih =>
    intro l hl
    cases l with
    | nil => rw [chunk10k_nil]; simp
    | cons a t =>
      have hb : ((a :: t).drop 10000).length ≤ N := by
        simp only [List.length_drop, List.length_cons]
        simp only [List.length_cons] at hl
        omega
      rw [chunk10k_cons _ (by simp), List.map_cons, ih _ hb]
      simp only [List.length_take, List.length_drop]
      by_cases hlen : (a :: t).length < 10000
      · have h1 : (a :: t).length / 10000 = 0 := Nat.div_eq_of_lt hlen
        have h2 : (a :: t).length % 10000 = (a :: t).length :=
          Nat.mod_eq_of_lt hlen
        have h3 : (a :: t).length - 10000 = 0 := by omega
        have h4 : min 10000 (a :: t).length = (a :: t).length := by omega
        have h5 : (a :: t).length ≠ 0 := by simp
        rw [h3, h4, h1, h2]
        simp [h5]
      · have h4 : min 10000 (a :: t).length = 10000 := by omega
        have h1 : (a :: t).length / 10000 = ((a :: t).length - 10000) / 10000 + 1 := by
          omega
        have h2 : (a :: t).length % 10000 = ((a :: t).length - 10000) % 10000 := by
          omega
        rw [h4, h1, h2, List.replicate_succ, List.cons_append]

lemma mbatch_fold_eq {α : Type} (n : Nat) : ∀ (N : Nat) (s : List α),
    s.length ≤ N → s ≠ [] → ∀ (q : List (List α)) (P : List α) (c : Nat),
    c + s.length = n → P.length = c % 10000 →
    List.foldl (mbatch_step n) (q, P, c) s = (q ++ chunk10k (P ++ s), [], n) := by
  intro N
  induction N with
  | zero =>
    intro s hs hne
    exact absurd (List.eq_nil_of_length_eq_zero (by omega)) hne
  | succ N ih =>
    intro s hs hne q P c hc hP
    cases s with
    | nil => exact absurd rfl hne
    | cons r s' =>
      rw [List.foldl_cons]
      have hstep : mbatch_step n (q, P, c) r =
          if (c + 1) % 10000 = 0 ∨ c + 1 = n then (q ++ [P ++ [r]], [], c + 1)
          else (q, P ++ [r], c + 1) := rfl
      have hmod : c % 10000 < 10000 := Nat.mod_lt c (by omega)
      by_cases hf : (c + 1) % 10000 = 0 ∨ c + 1 = n
      · rw [hstep, if_pos hf]
        cases s' with
        | nil =>
          have hcn : c + 1 = n := by
            simp only [List.length_cons, List.length_nil] at hc
            omega
          have hlenP : (P ++ [r]).length ≤ 10000 := by
            simp only [List.length_append, List.length_singleton]
            omega
          have hch : chunk10k (P ++ [r]) = [P ++ [r]] := by
            rw [chunk10k_cons _ (by simp), List.take_of_length_le hlenP,
              List.drop_eq_nil_of_le hlenP, chunk10k_nil]
          rw [List.foldl_nil, hch, hcn]
        | cons r2 s'' =>
          have hne2 : r2 :: s'' ≠ [] := by simp
          have hlt : c + 1 < n := by
            simp only [List.length_cons] at hc
            omega
          have h10 : (c + 1) % 10000 = 0 := by
            rcases hf with hf | hf
            · exact hf
            · omega
          have hlenP : (P ++ [r]).length = 10000 := by
            simp only [List.length_append, List.length_singleton]
            omega
          have hb : (r2 :: s'').length ≤ N := by
            simp only [List.length_cons] at hs ⊢
            omega
          rw [ih (r2 :: s'') hb hne2 (q ++ [P ++ [r]]) [] (c + 1)
            (by simp only [List.length_cons] at hc ⊢; omega)
            (by simp [h10])]
          have hsplit : chunk10k (P ++ r :: r2 :: s'') =
              (P ++ [r]) :: chunk10k (r2 :: s'') := by
            have hpr : P ++ r :: r2 :: s'' = (P ++ [r]) ++ (r2 :: s'') := by
              rw [List.append_assoc, List.singleton_append]
            rw [hpr, chunk10k_cons _ (by simp), List.take_left' hlenP,
              List.drop_left' hlenP]
          rw [hsplit]
          simp [List.append_assoc]
      · rw [hstep, if_neg hf]
        push_neg at hf
        have hne2 : s' ≠ [] := by
          intro h0
          subst h0
          simp only [List.length_cons, List.length_nil] at hc
          exact hf.2 (by omega)
        have hb : s'.length ≤ N := by
          simp only [List.length_cons] at hs
          omega
        have hP' : (P ++ [r]).length = (c + 1) % 10000 := by
          simp only [List.length_append, List.length_singleton]
          omega
        rw [ih s' hb hne2 q (P ++ [r]) (c + 1)
          (by simp only [List.length_cons] at hc ⊢; omega) hP']
        rw [List.append_assoc, List.singleton_append]

/-- The grouping the `bulk_insert` loop performs is exactly the
10000-or-final-row chunking. -/
lemma sub_batches_eq_chunk10k {α : Type} (rows : List α) :
    sub_batches rows = chunk10k rows := by
  cases rows with
  | nil => rw [chunk10k_nil]; rfl
  | cons r t =>
    unfold sub_batches
    rw [mbatch_fold_eq (r :: t).length (r :: t).length (r :: t) le_rfl (by simp)
      [] [] 0 (by simp) (by simp)]
    simp

lemma chunk10k_lengths {α : Type} (l : List α) :
    (chunk10k l).map List.length =
      List.replicate (l.length / 10000) 10000 ++
        (if l.length % 10000 = 0 then [] else [l.length % 10000]) :=
  chunk10k_lengths_aux l.length l le_rfl

lemma chunk10k_ne_nil_aux {α : Type} : ∀ (N : Nat) (l : List α), l.length ≤ N →
    ∀ g ∈ chunk10k l, g ≠ [] := by
  intro N
  induction N with
  | zero =>
    intro l hl g hg
    have h0 : l = [] := List.eq_nil_of_length_eq_zero (by omega)
    subst h0
    rw [chunk10k_nil] at hg
    simp at hg
  | succ N ih =>
    intro l hl g hg
    cases l with
    | nil =>
      rw [chunk10k_nil] at hg
      simp at hg
    | cons a t =>
      rw [chunk10k_cons _ (by simp)] at hg
      rcases List.mem_cons.mp hg with hg | hg
      · subst hg
        have : ((a :: t).take 10000).length > 0 := by
          rw [List.length_take]
          simp only [List.length_cons]
          omega
        exact List.ne_nil_of_length_pos this
      · have hb : ((a :: t).drop 10000).length ≤ N := by
          simp only [List.length_drop, List.length_cons]
          simp only [List.length_cons] at hl
          omega
        exact ih _ hb g hg

lemma pend_str_append_one (P : List (List PyVal)) (r : List PyVal) :
    pend_str (P ++ [r]) = pend_str P ++ row_fragment r ++ [','] := by
  simp [pend_str, List.append_assoc]

lemma mbulk_fold_eq (ic uc : Str) (n : Nat) : ∀ (s : List (List PyVal))
    (qR : List (List (List PyVal))) (P : List (List PyVal)) (c : Nat),
    List.foldl (mbulk_step ic uc n) (qR.map (stmt_of ic uc), pend_str P, c) s =
      ((List.foldl (mbatch_step n) (qR, P, c) s).1.map (stmt_of ic uc),
        pend_str (List.foldl (mbatch_step n) (qR, P, c) s).2.1,
        (List.foldl (mbatch_step n) (qR, P, c) s).2.2) := by
  intro s
  induction s with
  | nil => intro qR P c; rfl
  | cons r s' ih =>
    intro qR P c
    rw [List.foldl_cons, List.foldl_cons]
    by_cases hf : (c + 1) % 10000 = 0 ∨ c + 1 = n
    · have h1 : mbulk_step ic uc n (qR.map (stmt_of ic uc), pend_str P, c) r =
          ((qR ++ [P ++ [r]]).map (stmt_of ic uc), pend_str [], c + 1) := by
        simp only [mbulk_step]
        rw [if_pos hf, ← pend_str_append_one, List.map_append]
        rfl
      have h2 : mbatch_step n (qR, P, c) r = (qR ++ [P ++ [r]], [], c + 1) := by
        simp only [mbatch_step]
        rw [if_pos hf]
      rw [h1, h2, ih]
    · have h1 : mbulk_step ic uc n (qR.map (stmt_of ic uc), pend_str P, c) r =
          (qR.map (stmt_of ic uc), pend_str (P ++ [r]), c + 1) := by
        simp only [mbulk_step]
        rw [if_neg hf, ← pend_str_append_one]
      have h2 : mbatch_step n (qR, P, c) r = (qR, P ++ [r], c + 1) := by
        simp only [mbatch_step]
        rw [if_neg hf]
      rw [h1, h2, ih]

/-- The statements built by the MySQL `bulk_insert` are exactly one statement
per row group. -/
lemma mysql_bulk_insert_eq (ic uc : Str) (rows : List (List PyVal)) :
    mysql_bulk_insert ic uc rows = (sub_batches rows).map (stmt_of ic uc) := by
  unfold mysql_bulk_insert sub_batches
  have h := mbulk_fold_eq ic uc rows.length rows [] [] 0
  simp only [List.map_nil] at h
  have hps : pend_str [] = [] := rfl
  rw [hps] at h
  rw [h]

/-- Claim C6 (confirmed): the MySQL `bulk_insert` emits one sub-batch
statement per row group; the groups concatenate, in order, to the original
row list (each row appears exactly once); group sizes are the full-10000
groups followed by the remainder, so every group has at most 10000 rows and
a boundary falls exactly at every 10000th row or at the final row; in
particular 25000 rows produce exactly 3 sub-batches of 10000, 10000 and
5000 rows. -/
theorem mysql_bulk_insert_batches (ic uc : Str) (rows : List (List PyVal)) :
    mysql_bulk_insert ic uc rows = (sub_batches rows).map (stmt_of ic uc)
    ∧ (sub_batches rows).flatten = rows
    ∧ (sub_batches rows).map List.length =
        List.replicate (rows.length / 10000) 10000 ++
          (if rows.length % 10000 = 0 then [] else [rows.length % 10000])
    ∧ (∀ g ∈ sub_batches rows, g.length ≤ 10000)
    ∧ (rows.length = 25000 →
        (sub_batches rows).map List.length = [10000, 10000, 5000]) := by
  have hlen : (sub_batches rows).map List.length =
      List.replicate (rows.length / 10000) 10000 ++
        (if rows.length % 10000 = 0 then [] else [rows.length % 10000]) := by
    rw [sub_batches_eq_chunk10k]
    exact chunk10k_lengths rows
  refine ⟨mysql_bulk_insert_eq ic uc rows, ?_, hlen, ?_, ?_⟩
  · rw [sub_batches_eq_chunk10k]
    exact chunk10k_flatten rows
  · intro g hg
    have hmem : g.length ∈ (sub_batches rows).map List.length :=
      List.mem_map_of_mem List.length hg
    rw [hlen] at hmem
    rcases List.mem_append.mp hmem with hmem | hmem
    · rw [List.eq_of_mem_replicate hmem]
    · by_cases hmod : rows.length % 10000 = 0
      · rw [if_pos hmod] at hmem
        simp at hmem
      · rw [if_neg hmod] at hmem
        rw [List.mem_singleton.mp hmem]
        exact Nat.le_of_lt (Nat.mod_lt _ (by omega))
  · intro h25
    rw [hlen, h25]
    norm_num
    rfl

/-- Claim C6 (witness): the batching statement evaluated at 25000 one-cell
rows: exactly 3 sub-batches of sizes 10000, 10000 and 5000. -/
theorem mysql_bulk_insert_batches_witness :
    (List.replicate 25000 ([PyVal.none])).length = 25000
    ∧ (sub_batches (List.replicate 25000 ([PyVal.none]))).map List.length =
        [10000, 10000, 5000] :=
  ⟨by rw [List.length_replicate],
    (mysql_bulk_insert_batches [] [] (List.replicate 25000 ([PyVal.none]))).2.2.2.2
      (by rw [List.length_replicate])⟩

lemma pyReplace_nil (pat rep : Str) : pyReplace pat rep [] = [] := by
  rw [pyReplace]

lemma pyReplace_cons (pat rep : Str) (c : Char) (cs : Str) :
    pyReplace pat rep (c :: cs) =
      if pat ≠ [] ∧ (c :: cs).take pat.length = pat then
        rep ++ pyReplace pat rep ((c :: cs).drop pat.length)
      else c :: pyReplace pat rep cs := by
  rw [pyReplace]
  split <;> rfl

/-- A character outside the pattern can never start a match. -/
lemma pyReplace_cons_of_not_mem (pat rep : Str) (c : Char) (cs : Str)
    (hc : c ∉ pat) :
    pyReplace pat rep (c :: cs) = c :: pyReplace pat rep cs := by
  rw [pyReplace_cons, if_neg]
  rintro ⟨h1, h2⟩
  cases pat with
  | nil => exact h1 rfl
  | cons p ps =>
    rw [List.length_cons, List.take_succ_cons] at h2
    injection h2 with hc' _
    apply hc
    rw [hc']
    exact List.mem_cons_self p ps

/-- Replacement distributes across a separator character that does not occur
in the pattern: no match can start in `u` and extend past the separator. -/
lemma pyReplace_sep_aux (pat rep : Str) (hp : pat ≠ []) (c : Char) (v : Str)
    (hc : c ∉ pat) : ∀ (N : Nat) (u : Str), u.length ≤ N →
    pyReplace pat rep (u ++ c :: v) =
      pyReplace pat rep u ++ pyReplace pat rep (c :: v) := by
  have hplen : 1 ≤ pat.length := by
    cases pat with
    | nil => exact absurd rfl hp
    | cons p ps => simp
  intro N
  induction N with
  | zero =>
    intro u hu
    have h0 : u = [] := List.eq_nil_of_length_eq_zero (by omega)
    subst h0
    rw [List.nil_append, pyReplace_nil, List.nil_append]
  | succ N ih =>
    intro u hu
    cases u with
    | nil => rw [List.nil_append, pyReplace_nil, List.nil_append]
    | cons a u' =>
      by_cases hmatch : (a :: u').take pat.length = pat
      · have hlen : pat.length ≤ (a :: u').length := by
          have hh := congrArg List.length hmatch
          rw [List.length_take] at hh
          omega
        have hmatch2 : ((a :: u') ++ c :: v).take pat.length = pat := by
          rw [List.take_append_of_le_length hlen]
          exact hmatch
        have hdrop2 : ((a :: u') ++ c :: v).drop pat.length =
            (a :: u').drop pat.length ++ c :: v :=
          List.drop_append_of_le_length hlen
        have hL : pyReplace pat rep ((a :: u') ++ c :: v) =
            rep ++ pyReplace pat rep ((a :: u').drop pat.length ++ c :: v) := by
          rw [List.cons_append, pyReplace_cons, if_pos]
          · rw [← List.cons_append, hdrop2]
          · constructor
            · exact hp
            · rw [← List.cons_append]
              exact hmatch2
        have hR : pyReplace pat rep (a :: u') =
            rep ++ pyReplace pat rep ((a :: u').drop pat.length) := by
          rw [pyReplace_cons, if_pos ⟨hp, hmatch⟩]
        have hlen2 : ((a :: u').drop pat.length).length ≤ N := by
          simp only [List.length_drop, List.length_cons]
          simp only [List.length_cons] at hu
          omega
        rw [hL, hR, ih _ hlen2, List.append_assoc]
      · have hmatch2 : ¬ ((a :: u') ++ c :: v).take pat.length = pat := by
          intro h2
          by_cases hlen : pat.length ≤ (a :: u').length
          · rw [List.take_append_of_le_length hlen] at h2
            exact hmatch h2
          · push_neg at hlen
            rw [List.take_append_eq_append_take] at h2
            obtain ⟨k, hk⟩ : ∃ k, pat.length - (a :: u').length = k + 1 :=
              ⟨pat.length - (a :: u').length - 1, by omega⟩
            rw [hk, List.take_succ_cons] at h2
            apply hc
            rw [← h2]
            exact List.mem_append.mpr (Or.inr (List.mem_cons_self _ _))
        have hL : pyReplace pat rep ((a :: u') ++ c :: v) =
            a :: pyReplace pat rep (u' ++ c :: v) := by
          rw [List.cons_append, pyReplace_cons, if_neg]
          rintro ⟨h1, h2⟩
          apply hmatch2
          rw [List.cons_append]
          exact h2
        have hR : pyReplace pat rep (a :: u') = a :: pyReplace pat rep u' := by
          rw [pyReplace_cons, if_neg]
          rintro ⟨h1, h2⟩
          exact hmatch h2
        have hu' : u'.length ≤ N := by
          simp only [List.length_cons] at hu
          omega
        rw [hL, hR, ih _ hu', List.cons_append]

lemma pyReplace_sep (pat rep : Str) (hp : pat ≠ []) (c : Char) (u v : Str)
    (hc : c ∉ pat) :
    pyReplace pat rep (u ++ c :: v) =
      pyReplace pat rep u ++ pyReplace pat rep (c :: v) :=
  pyReplace_sep_aux pat rep hp c v hc u.length u le_rfl

lemma null_subst_nil : null_subst [] = [] := pyReplace_nil _ _

lemma null_subst_sep (c : Char) (hc : c ∉ "'None'".data) (u v : Str) :
    null_subst (u ++ c :: v) = null_subst u ++ c :: null_subst v := by
  unfold null_subst
  rw [pyReplace_sep _ _ (by decide) c u v hc,
    pyReplace_cons_of_not_mem _ _ c v hc]

/-- The expected text of one row after the NULL substitution: the
substitution acts cell by cell. -/
def subst_row_fragment (row : List PyVal) : Str :=
  "(".data ++ pyJoin ",".data (row.map cell_subst) ++ ")".data

/-- The expected text of `insert_vals[0:-1]` after the NULL substitution. -/
def subst_values_fragment (g : List (List PyVal)) : Str :=
  pyJoin ",".data (g.map subst_row_fragment)

lemma pyJoin_comma_cons_cons (f : List PyVal → Str) (x y : List PyVal)
    (ys : List (List PyVal)) :
    pyJoin ",".data ((x :: y :: ys).map f) =
      f x ++ ',' :: pyJoin ",".data ((y :: ys).map f) := by
  show f x ++ ",".data ++ _ = _
  rw [List.append_assoc]
  rfl

lemma pyJoin_comma_cons_cons_cell (f : PyVal → Str) (x y : PyVal)
    (ys : List PyVal) :
    pyJoin ",".data ((x :: y :: ys).map f) =
      f x ++ ',' :: pyJoin ",".data ((y :: ys).map f) := by
  show f x ++ ",".data ++ _ = _
  rw [List.append_assoc]
  rfl

lemma null_subst_cells (row : List PyVal) :
    null_subst (pyJoin ",".data (row.map cell_format)) =
      pyJoin ",".data (row.map cell_subst) := by
  induction row with
  | nil => exact null_subst_nil
  | cons x xs ih =>
    cases xs with
    | nil => rfl
    | cons y ys =>
      rw [pyJoin_comma_cons_cons_cell cell_format,
        null_subst_sep ',' (by decide), ih,
        pyJoin_comma_cons_cons_cell cell_subst]
      rfl

lemma null_subst_row_fragment (row : List PyVal) :
    null_subst (row_fragment row) = subst_row_fragment row := by
  have hshape : row_fragment row =
      [] ++ '(' :: (pyJoin ",".data (row.map cell_format) ++ ')' :: []) := by
    show "(".data ++ pyJoin ",".data (row.map cell_format) ++ ")".data = _
    rw [List.nil_append, List.append_assoc]
    rfl
  rw [hshape, null_subst_sep '(' (by decide), null_subst_nil,
    null_subst_sep ')' (by decide), null_subst_nil, null_subst_cells]
  show _ = "(".data ++ pyJoin ",".data (row.map cell_subst) ++ ")".data
  rw [List.nil_append, List.append_assoc]
  rfl

lemma null_subst_values_fragment (g : List (List PyVal)) :
    null_subst (values_fragment g) = subst_values_fragment g := by
  unfold values_fragment subst_values_fragment
  induction g with
  | nil => exact null_subst_nil
  | cons x xs ih =>
    cases xs with
    | nil => exact null_subst_row_fragment x
    | cons y ys =>
      rw [pyJoin_comma_cons_cons row_fragment,
        null_subst_sep ',' (by decide), ih, null_subst_row_fragment,
        pyJoin_comma_cons_cons subst_row_fragment]

lemma pend_str_ne_nil (g : List (List PyVal)) (hg : g ≠ []) : pend_str g ≠ [] := by
  cases g with
  | nil => exact absurd rfl hg
  | cons r t =>
    show (row_fragment r ++ [',']) ++ pend_str t ≠ []
    simp

lemma pend_str_dropLast (g : List (List PyVal)) (hg : g ≠ []) :
    (pend_str g).dropLast = values_fragment g := by
  induction g with
  | nil => exact absurd rfl hg
  | cons r t ih =>
    cases t with
    | nil =>
      show ((row_fragment r ++ [',']) ++ []).dropLast = values_fragment [r]
      rw [List.append_nil, List.dropLast_concat]
      rfl
    | cons r2 t2 =>
      have h2 : pend_str (r2 :: t2) ≠ [] := pend_str_ne_nil _ (by simp)
      show ((row_fragment r ++ [',']) ++ pend_str (r2 :: t2)).dropLast =
        values_fragment (r :: r2 :: t2)
      rw [List.dropLast_append_of_ne_nil _ h2, ih (by simp)]
      unfold values_fragment
      rw [pyJoin_comma_cons_cons row_fragment, List.append_assoc]
      rfl

/-- The expected final text of one sub-batch statement, with the NULL
substitution carried out cell by cell. -/
def subst_stmt_of (ic uc : Str) (g : List (List PyVal)) : Str :=
  ic ++ " VALUES ".data ++ subst_values_fragment g ++ " ".data ++ uc ++ ";".data

lemma stmt_of_eq_subst (ic uc : Str) (g : List (List PyVal)) (hg : g ≠ []) :
    stmt_of ic uc g = subst_stmt_of ic uc g := by
  unfold stmt_of subst_stmt_of
  rw [pend_str_dropLast g hg, null_subst_values_fragment]

lemma null_subst_quoted_none : null_subst "'None'".data = "NULL".data := by
  show pyReplace "'None'".data "NULL".data ('\'' :: "None'".data) = "NULL".data
  rw [pyReplace_cons, if_pos (by decide)]
  rw [show ('\'' :: "None'".data).drop ("'None'".data).length = [] from rfl]
  rw [pyReplace_nil, List.append_nil]

lemma cell_subst_none : cell_subst PyVal.none = "NULL".data := by
  show null_subst "'None'".data = "NULL".data
  exact null_subst_quoted_none

lemma cell_subst_empty_str : cell_subst (PyVal.str []) = "NULL".data := by
  show null_subst "'None'".data = "NULL".data
  exact null_subst_quoted_none

lemma cell_subst_none_str : cell_subst (PyVal.str "None".data) = "NULL".data := by
  show null_subst "'None'".data = "NULL".data
  exact null_subst_quoted_none

/-- The statement list of the MySQL `bulk_insert`, with the NULL substitution
pushed down to the individual cells: every dispatched statement is the insert
clause, the per-cell-substituted VALUES fragment, and the update clause. -/
lemma mysql_bulk_insert_subst (ic uc : Str) (rows : List (List PyVal)) :
    mysql_bulk_insert ic uc rows =
      (sub_batches rows).map (subst_stmt_of ic uc) := by
  rw [mysql_bulk_insert_eq]
  apply List.map_congr_left
  intro g hg
  have hne : g ≠ [] := by
    rw [sub_batches_eq_chunk10k] at hg
    exact chunk10k_ne_nil_aux rows.length rows le_rfl g hg
  exact stmt_of_eq_subst ic uc g hne

/-- Claim C7 (confirmed): in every statement built by the MySQL `bulk_insert`
the NULL substitution acts cell by cell, and the cell of a Python `None`
field becomes exactly the four characters `NULL` — unquoted, and different
from the quoted text `'None'` and from a quoted empty string `''`. -/
theorem mysql_bulk_insert_none_as_null (ic uc : Str) (rows : List (List PyVal)) :
    mysql_bulk_insert ic uc rows = (sub_batches rows).map (subst_stmt_of ic uc)
    ∧ cell_subst PyVal.none = "NULL".data
    ∧ ("NULL".data : Str) ≠ "'None'".data
    ∧ ("NULL".data : Str) ≠ "''".data :=
  ⟨mysql_bulk_insert_subst ic uc rows, cell_subst_none, by decide, by decide⟩

/-- Claim C10 (confirmed): the set of cell values rendered as SQL `NULL` is
strictly larger than the singleton set holding `None`: besides `None` itself, the empty string (falsy,
so `escape` returns `None` for it) and the genuine string `"None"` also format
to the cell text `'None'` and are therefore substituted by `NULL` in every
dispatched statement. -/
theorem mysql_bulk_insert_null_set_larger (ic uc : Str)
    (rows : List (List PyVal)) :
    mysql_bulk_insert ic uc rows = (sub_batches rows).map (subst_stmt_of ic uc)
    ∧ cell_subst (PyVal.str []) = "NULL".data
    ∧ cell_subst (PyVal.str "None".data) = "NULL".data
    ∧ cell_subst PyVal.none = "NULL".data
    ∧ PyVal.str [] ≠ PyVal.none
    ∧ PyVal.str "None".data ≠ PyVal.none :=
  ⟨mysql_bulk_insert_subst ic uc rows, cell_subst_empty_str, cell_subst_none_str,
    cell_subst_none, by decide, by decide⟩
